import Mathlib

/-!
Verification of the teamster image-catalog pipeline (src/teamster.py).

We embed the core pipeline shallowly:
  * paths are lists of components (`Path`), rendered with "/" between
    components like `str(PurePosixPath)`;
  * the image root is a directory tree (`FSTree`);
  * the thumbnail directory is explicit state (`ThumbFS`): an association
    list of created thumbnail files (keyed by relative path, storing the
    source path the thumbnail was rendered from) plus the set of existing
    directories;
  * PIL image decoding/encoding is an oracle (`ImageEnv`) telling, per
    source path, whether `Image.open` fails and whether
    `thumbnail`/`save` fails, and with which exception;
  * Python exceptions are the inductive `PyExc`; `IOError(...) from e`
    becomes the `ioError` constructor carrying its cause.

`create_thumbnail`, `get_file_listing`, `find_file` and the manifest
shaping of `serve_config_json` are translated line by line from
src/teamster.py; helper functions mirror the `pathlib` semantics the
code relies on (`suffix`, `stem`, `with_suffix("")`).
-/

namespace Teamster

/-- Relative or absolute filesystem path, as a list of name components. -/
abbrev Path : Type := List String

/-- Render a path the way `str(path)` does for a relative posix path. -/
def renderPath (p : Path) : String :=
  String.intercalate "/" p

/-- Last name component of a path (the `name` of a `pathlib` path);
empty for the empty path. -/
def lastName (p : Path) : String :=
  p.getLastD ""

/-- Parent path (`path.parent` restricted to nonempty relative paths). -/
def dirname (p : Path) : Path :=
  p.dropLast

/-- Index of the last occurrence of a dot in the character list, if any. -/
def lastDotIdx (cs : List Char) : Option Nat :=
  match (cs.reverse.findIdx? (fun c => c = '.')) with
  | none => none
  | some j => some (cs.length - 1 - j)

/-- Python `pathlib` suffix of a file name: the substring from the last
dot, provided that dot is neither the first nor the last character;
otherwise the empty string. -/
def suffix (name : String) : String :=
  let cs := name.toList
  match lastDotIdx cs with
  | none => ""
  | some i => if 0 < i ∧ i < cs.length - 1 then String.mk (cs.drop i) else ""

/-- Python `pathlib` stem of a file name: the name with its suffix
removed (the whole name when there is no suffix). -/
def stem (name : String) : String :=
  let cs := name.toList
  match lastDotIdx cs with
  | none => name
  | some i => if 0 < i ∧ i < cs.length - 1 then String.mk (cs.take i) else name

/-- Lowercasing of one character; the extensions the code compares are
ASCII, where this agrees with Python `str.lower`. -/
def lowerChar (c : Char) : Char :=
  if 65 ≤ c.toNat ∧ c.toNat ≤ 90 then Char.ofNat (c.toNat + 32) else c

/-- Python `str.lower` on the (ASCII) extension strings. -/
def pyLower (s : String) : String :=
  String.mk (s.toList.map lowerChar)

/-- Python `str.replace(".", "")`: every dot is removed. -/
def removeDots (s : String) : String :=
  String.mk (s.toList.filter (fun c => c ≠ '.'))

/-- Extension as computed at src/teamster.py:141:
`img.suffix.replace(".", "").lower()`. -/
def extOf (name : String) : String :=
  pyLower (removeDots (suffix name))

/-- ACCEPTED_SUFFIXES from src/teamster.py:22. -/
def ACCEPTED_SUFFIXES : List String := ["png", "jpg", "jpeg", "gif"]

/-- EXTENSION_MAPPING from src/teamster.py:23, as `dict.get`:
`some` for a mapped extension, `none` otherwise. -/
def EXTENSION_MAPPING (ext : String) : Option String :=
  if ext = "jpeg" then some "jpg"
  else if ext = "gif" then some "jpg"
  else none

/-- The relabeled public extension, i.e. `new_ext or ext` at
src/teamster.py:155. -/
def relabelExt (ext : String) : String :=
  (EXTENSION_MAPPING ext).getD ext

/-- V2_API_PREFIX from src/teamster.py:21. -/
def V2_API_PREFIX : String := "/evergreen-assets/backgroundimages"

/-- A Python exception value: either a plain exception with a message, or
an `IOError` raised with `from e`, carrying its cause. -/
inductive PyExc where
  | exc (msg : String)
  | ioError (msg : String) (cause : PyExc)
deriving DecidableEq, Repr

/-- Whether an exception is an `IOError` wrapping a cause
(i.e. was raised by the `raise ... from e` at src/teamster.py:128). -/
def isWrapped : Option PyExc → Bool
  | some (.ioError _ _) => true
  | _ => false

/-- One manifest record, the dict yielded at src/teamster.py:154-160. -/
structure ImageEntry where
  filetype : String
  id : String
  name : String
  src : String
  thumb_src : String
deriving DecidableEq, Repr

/-- The configuration fields the core pipeline reads (src/teamster.py:52-58). -/
structure Config where
  teams_version : Nat
  thumbnail_size : Nat × Nat
deriving DecidableEq, Repr

/-- State of the thumbnail directory: `files` maps the relative path of
each existing thumbnail file to the rendered source path it was created
from (so overwriting would be observable); `dirs` lists the existing
directories (relative; `[]` is the thumbnail root itself). -/
structure ThumbFS where
  files : List (Path × String)
  dirs : List Path
deriving DecidableEq, Repr

/-- Content recorded for the thumbnail at relative path `p`, if present. -/
def lookupThumb (fs : ThumbFS) (p : Path) : Option String :=
  (fs.files.find? (fun q => q.1 = p)).map (fun q => q.2)

/-- `thumb.exists()` for the thumbnail file at relative path `p`. -/
def thumbExists (fs : ThumbFS) (p : Path) : Bool :=
  (lookupThumb fs p).isSome

/-- Oracle for the PIL calls: for a given source image path,
`openResult` is the exception `Image.open` raises (or `none` on
success), and `processResult` the exception `f.thumbnail`/`f.save`
raises (or `none` on success). -/
structure ImageEnv where
  openResult : Path → Option PyExc
  processResult : Path → Option PyExc

/-- Body of `create_thumbnail` after the parent directory has been
ensured (src/teamster.py:123-128): `Image.open` sits OUTSIDE the
`try`, so its exception propagates unwrapped; `f.thumbnail`/`f.save`
failures are caught and re-raised as
`IOError(f"could not create thumbnail for {img}") from e`. -/
def createAfterMkdir (env : ImageEnv) (img thumb : Path) (fs : ThumbFS) :
    ThumbFS × Option PyExc :=
  match env.openResult img with
  | some e => (fs, some e)
  | none =>
    match env.processResult img with
    | some e =>
      (fs, some (.ioError ("could not create thumbnail for " ++ renderPath img) e))
    | none => ({ fs with files := (thumb, renderPath img) :: fs.files }, none)

/-- `create_thumbnail(img, thumb, size)` from src/teamster.py:119-128.
First `thumb.parent.mkdir()` when the parent does not exist — the
non-recursive `mkdir` itself raises when the grandparent is missing —
then the PIL pipeline. Returns the thumbnail-directory state after the
call together with the exception it raised, if any. -/
def create_thumbnail (env : ImageEnv) (img thumb : Path) (size : Nat × Nat)
    (fs : ThumbFS) : ThumbFS × Option PyExc :=
  let par := dirname thumb
  if par ∈ fs.dirs then
    createAfterMkdir env img thumb fs
  else if dirname par ∈ fs.dirs then
    createAfterMkdir env img thumb { fs with dirs := par :: fs.dirs }
  else
    (fs, some (.exc ("FileNotFoundError: " ++ renderPath par)))

/-- The thumbnail-ensuring step of the listing loop
(src/teamster.py:146-148): `if not thumb.exists(): create_thumbnail(p,
thumb, config.thumbnail_size)`. Source and thumbnail share the relative
path `img` (`thumb = config.thumbnail_dir / img`). -/
def ensure_thumbnail (env : ImageEnv) (size : Nat × Nat) (img : Path)
    (fs : ThumbFS) : ThumbFS × Option PyExc :=
  if thumbExists fs img then (fs, none)
  else create_thumbnail env img img size fs

/-- Manifest entry built for the accepted file at relative path `img`
(src/teamster.py:140-160): `none` exactly when the extension is not in
ACCEPTED_SUFFIXES (the `continue` at line 143); otherwise the dict
yielded at lines 154-160, with `img_name = str(img) + f".{new_ext}"`
when a relabeling occurred (line 152). -/
def mkEntry (cfg : Config) (img : Path) : Option ImageEntry :=
  let ext := extOf (lastName img)
  if ext ∈ ACCEPTED_SUFFIXES then
    let new_ext := EXTENSION_MAPPING ext
    let pre := if cfg.teams_version = 2 then V2_API_PREFIX else ""
    let img_name := renderPath img ++
      (match new_ext with
       | some ne => "." ++ ne
       | none => "")
    some { filetype := new_ext.getD ext
           id := stem (lastName img)
           name := stem (lastName img)
           src := pre ++ "/images/" ++ img_name
           thumb_src := pre ++ "/thumbnails/" ++ img_name }
  else none

/-- A node of the image-root directory tree. -/
inductive FSTree where
  | file (name : String)
  | dir (name : String) (children : List FSTree)

/-- `get_file_listing(config, base_dir)` from src/teamster.py:131-160,
walking the children `ts` of the directory at relative path `rel`.
Directories recurse (line 137); files are filtered by extension,
their thumbnail is ensured, and an entry is yielded (lines 139-160).
Returns the entries yielded before any exception, the resulting
thumbnail-directory state, and the exception that aborted the walk,
if any (the generator has no handler: a `create_thumbnail` failure
propagates and ends the iteration). -/
def get_file_listing (cfg : Config) (env : ImageEnv) (rel : Path)
    (ts : List FSTree) (fs : ThumbFS) :
    List ImageEntry × ThumbFS × Option PyExc :=
  match ts with
  | [] => ([], fs, none)
  | .dir d children :: rest =>
    match get_file_listing cfg env (rel ++ [d]) children fs with
    | (es1, fs1, some e) => (es1, fs1, some e)
    | (es1, fs1, none) =>
      match get_file_listing cfg env rel rest fs1 with
      | (es2, fs2, err2) => (es1 ++ es2, fs2, err2)
  | .file n :: rest =>
    match mkEntry cfg (rel ++ [n]) with
    | none => get_file_listing cfg env rel rest fs
    | some entry =>
      match ensure_thumbnail env cfg.thumbnail_size (rel ++ [n]) fs with
      | (fs1, some e) => ([], fs1, some e)
      | (fs1, none) =>
        match get_file_listing cfg env rel rest fs1 with
        | (es2, fs2, err2) => (entry :: es2, fs2, err2)

/-- Relative paths of all files in the tree, in walk order. -/
def filesOf (rel : Path) (ts : List FSTree) : List Path :=
  match ts with
  | [] => []
  | .dir d children :: rest => filesOf (rel ++ [d]) children ++ filesOf rel rest
  | .file n :: rest => (rel ++ [n]) :: filesOf rel rest

/-- Minimal JSON document model for the manifest shapes. -/
inductive Json where
  | str (s : String)
  | arr (xs : List Json)
  | obj (fields : List (String × Json))

/-- JSON object for one manifest entry, in the key order of the dict
literal at src/teamster.py:154-160. -/
def entryToJson (e : ImageEntry) : Json :=
  .obj [("filetype", .str e.filetype), ("id", .str e.id),
        ("name", .str e.name), ("src", .str e.src),
        ("thumb_src", .str e.thumb_src)]

/-- Manifest shaping of `serve_config_json` (src/teamster.py:222-227):
`teams_version == 1` gives the bare list of entries, otherwise the
object with the single key `videoBackgroundImages`. -/
def build_manifest (teams_version : Nat) (files : List ImageEntry) : Json :=
  if teams_version = 1 then .arr (files.map entryToJson)
  else .obj [("videoBackgroundImages", .arr (files.map entryToJson))]

/-- Python `path.with_suffix("")` for a nonempty path: the last
component loses its suffix (a component with no suffix is unchanged). -/
def withSuffixEmpty (p : Path) : Path :=
  match p with
  | [] => []
  | _ => dirname p ++ [stem (lastName p)]

/-- `find_file(path)` from src/teamster.py:163-166, with filesystem
existence supplied as the oracle `exi`: return the path itself if it
exists, else the path with its suffix stripped. -/
def find_file (exi : Path → Bool) (p : Path) : Path :=
  if exi p then p else withSuffixEmpty p

/-- Lexical resolution of `.` and `..` components, as the operating
system would resolve them for existing directories (`..` at the root
stays at the root). -/
def normalize (p : Path) : Path :=
  p.foldl
    (fun acc c =>
      if c = ".." then acc.dropLast
      else if c = "." then acc
      else acc ++ [c])
    []

/-- Fuel-indexed evaluator for the walk: structurally recursive (hence
computable inside the kernel), step for step the same algorithm as
`get_file_listing`; `walkFuel_eq_gfl` below proves them equal whenever
the fuel dominates the tree size. Used only to evaluate concrete runs. -/
def walkFuel (fuel : Nat) (cfg : Config) (env : ImageEnv) (rel : Path)
    (ts : List FSTree) (fs : ThumbFS) :
    List ImageEntry × ThumbFS × Option PyExc :=
  match fuel with
  | 0 => ([], fs, none)
  | fuel + 1 =>
    match ts with
    | [] => ([], fs, none)
    | .dir d children :: rest =>
      match walkFuel fuel cfg env (rel ++ [d]) children fs with
      | (es1, fs1, some e) => (es1, fs1, some e)
      | (es1, fs1, none) =>
        match walkFuel fuel cfg env rel rest fs1 with
        | (es2, fs2, err2) => (es1 ++ es2, fs2, err2)
    | .file n :: rest =>
      match mkEntry cfg (rel ++ [n]) with
      | none => walkFuel fuel cfg env rel rest fs
      | some entry =>
        match ensure_thumbnail env cfg.thumbnail_size (rel ++ [n]) fs with
        | (fs1, some e) => ([], fs1, some e)
        | (fs1, none) =>
          match walkFuel fuel cfg env rel rest fs1 with
          | (es2, fs2, err2) => (entry :: es2, fs2, err2)


/-! Concrete scenarios used to instantiate the theorems. -/

/-- Version-2 configuration with the default 128x128 thumbnail box. -/
def cfg2 : Config := { teams_version := 2, thumbnail_size := (128, 128) }

/-- PIL oracle in which every load and every resize/save succeeds. -/
def envOk : ImageEnv := { openResult := fun _ => none, processResult := fun _ => none }

/-- PIL oracle in which `Image.open` fails on every source. -/
def envOpenFail : ImageEnv :=
  { openResult := fun _ => some (.exc "cannot identify image file")
    processResult := fun _ => none }

/-- PIL oracle in which loading succeeds but `thumbnail`/`save` fails. -/
def envSaveFail : ImageEnv :=
  { openResult := fun _ => none
    processResult := fun _ => some (.exc "broken data stream") }

/-- PIL oracle that fails to open exactly the source `bad.png`. -/
def envFailBad : ImageEnv :=
  { openResult := fun p =>
      if p = ["bad.png"] then some (.exc "cannot identify image file") else none
    processResult := fun _ => none }

/-- Empty thumbnail directory (the root itself exists, as `main` ensures). -/
def fs0 : ThumbFS := { files := [], dirs := [[]] }

/-- Thumbnail directory holding only the thumbnail for `a.png`. -/
def fsA : ThumbFS := { files := [(["a.png"], "a.png")], dirs := [[]] }

/-- Thumbnail directory after the end-to-end walk: thumbnails for
`a.png` and `sub/b.jpeg`, plus the created `sub` directory. -/
def fsB : ThumbFS :=
  { files := [(["sub", "b.jpeg"], "sub/b.jpeg"), (["a.png"], "a.png")]
    dirs := [["sub"], []] }

/-- Image root of the end-to-end scenario: `a.png`, `sub/b.jpeg`, `c.txt`. -/
def demoTree : List FSTree :=
  [.file "a.png", .dir "sub" [.file "b.jpeg"], .file "c.txt"]

/-- The entry the code yields for `a.png` under version 2. -/
def aEntry : ImageEntry :=
  { filetype := "png"
    id := "a"
    name := "a"
    src := "/evergreen-assets/backgroundimages/images/a.png"
    thumb_src := "/evergreen-assets/backgroundimages/thumbnails/a.png" }

/-- The entry the code yields for `sub/b.jpeg` under version 2: the
relabeled extension is appended to `str(img)`, giving `sub/b.jpeg.jpg`. -/
def bEntry : ImageEntry :=
  { filetype := "jpg"
    id := "b"
    name := "b"
    src := "/evergreen-assets/backgroundimages/images/sub/b.jpeg.jpg"
    thumb_src := "/evergreen-assets/backgroundimages/thumbnails/sub/b.jpeg.jpg" }

/-- Existence oracle for `find_file` under which every path exists. -/
def exAll : Path → Bool := fun _ => true

/-- Existence oracle for `find_file` under which no path exists. -/
def exNone : Path → Bool := fun _ => false

/-- The traversal request resolved against the image root `root/images`:
`root/images/../secret.png`. -/
def travPath : Path := ["root", "images", "..", "secret.png"]

/-- Existence oracle in which the traversal target exists (the operating
system resolves `root/images/../secret.png` to the existing file
`root/secret.png`). -/
def exEnv9 : Path → Bool := fun p => decide (p = travPath)

/-! Helper lemmas about the thumbnail state and the walk. -/

theorem lookupThumb_dirs (fs : ThumbFS) (ds : List Path) (q : Path) :
    lookupThumb { fs with dirs := ds } q = lookupThumb fs q := rfl

theorem thumbExists_dirs (fs : ThumbFS) (ds : List Path) (q : Path) :
    thumbExists { fs with dirs := ds } q = thumbExists fs q := rfl

/-- A `createAfterMkdir` call for a thumbnail that does not yet exist
preserves every thumbnail already present. -/
theorem lookupThumb_createAfterMkdir (env : ImageEnv) (img thumb : Path)
    (fs : ThumbFS) (hthumb : thumbExists fs thumb = false) (q : Path)
    (c : String) (hq : lookupThumb fs q = some c) :
    lookupThumb (createAfterMkdir env img thumb fs).1 q = some c := by
  have hne : thumb ≠ q := by
    intro h
    subst h
    rw [thumbExists, hq] at hthumb
    simp at hthumb
  unfold createAfterMkdir
  cases env.openResult img with
  | some e => simpa using hq
  | none =>
    cases env.processResult img with
    | some e => simpa using hq
    | none =>
      simp only [lookupThumb]
      rw [List.find?_cons_of_neg]
      · exact hq
      · simp [hne]

/-- `create_thumbnail` for a thumbnail that does not yet exist preserves
every thumbnail already present. -/
theorem lookupThumb_create (env : ImageEnv) (img thumb : Path)
    (sz : Nat × Nat) (fs : ThumbFS) (hthumb : thumbExists fs thumb = false)
    (q : Path) (c : String) (hq : lookupThumb fs q = some c) :
    lookupThumb (create_thumbnail env img thumb sz fs).1 q = some c := by
  simp only [create_thumbnail]
  split
  · exact lookupThumb_createAfterMkdir env img thumb fs hthumb q c hq
  · split
    · exact lookupThumb_createAfterMkdir env img thumb _
        (by rw [thumbExists_dirs]; exact hthumb) q c hq
    · simpa using hq

/-- `ensure_thumbnail` preserves every thumbnail already present
(it only ever adds a file, under the not-exists guard). -/
theorem lookupThumb_ensure (env : ImageEnv) (sz : Nat × Nat) (img : Path)
    (fs : ThumbFS) (q : Path) (c : String) (hq : lookupThumb fs q = some c) :
    lookupThumb (ensure_thumbnail env sz img fs).1 q = some c := by
  cases heq : thumbExists fs img with
  | true => simp [ensure_thumbnail, heq, hq]
  | false =>
    simp only [ensure_thumbnail, heq, Bool.false_eq_true, if_false]
    exact lookupThumb_create env img img sz fs heq q c hq

/-- The whole walk preserves every thumbnail already present: nothing in
`get_file_listing` deletes or overwrites an existing thumbnail. -/
theorem lookupThumb_gfl (cfg : Config) (env : ImageEnv) (rel : Path)
    (ts : List FSTree) (fs : ThumbFS) :
    ∀ q c, lookupThumb fs q = some c →
      lookupThumb (get_file_listing cfg env rel ts fs).2.1 q = some c := by
  induction rel, ts, fs using get_file_listing.induct cfg env with
  | case1 rel fs =>
    intro q c hq
    simpa [get_file_listing] using hq
  | case2 rel fs d children rest es1 fs1 e heq ih =>
    intro q c hq
    simp only [get_file_listing, heq]
    have := ih q c hq
    rw [heq] at this
    exact this
  | case3 rel fs d children rest es1 fs1 heq1 es2 fs2 err2 heq2 ih1 ih2 =>
    intro q c hq
    simp only [get_file_listing, heq1, heq2]
    have h1 := ih1 q c hq
    rw [heq1] at h1
    have h2 := ih2 q c h1
    rw [heq2] at h2
    exact h2
  | case4 rel fs n rest hmk ih =>
    intro q c hq
    simp only [get_file_listing, hmk]
    exact ih q c hq
  | case5 rel fs n rest entry hmk fs1 e heq =>
    intro q c hq
    simp only [get_file_listing, hmk, heq]
    have := lookupThumb_ensure env cfg.thumbnail_size (rel ++ [n]) fs q c hq
    rw [heq] at this
    exact this
  | case6 rel fs n rest entry hmk fs1 heq es2 fs2 err2 heq2 ih =>
    intro q c hq
    simp only [get_file_listing, hmk, heq, heq2]
    have h1 := lookupThumb_ensure env cfg.thumbnail_size (rel ++ [n]) fs q c hq
    rw [heq] at h1
    have h2 := ih q c h1
    rw [heq2] at h2
    exact h2

/-- Every yielded entry (also in a walk aborted by an exception) is the
entry built for some file of the tree. -/
theorem mem_gfl_shape (cfg : Config) (env : ImageEnv) (rel : Path)
    (ts : List FSTree) (fs : ThumbFS) :
    ∀ e, e ∈ (get_file_listing cfg env rel ts fs).1 →
      ∃ img, img ∈ filesOf rel ts ∧ mkEntry cfg img = some e := by
  induction rel, ts, fs using get_file_listing.induct cfg env with
  | case1 rel fs =>
    simp [get_file_listing]
  | case2 rel fs d children rest es1 fs1 e heq ih =>
    intro e' he
    simp only [get_file_listing, heq] at he
    rw [heq] at ih
    obtain ⟨img, h1, h2⟩ := ih e' he
    exact ⟨img, by simp [filesOf, h1], h2⟩
  | case3 rel fs d children rest es1 fs1 heq1 es2 fs2 err2 heq2 ih1 ih2 =>
    intro e' he
    simp only [get_file_listing, heq1, heq2, List.mem_append] at he
    rw [heq1] at ih1
    rw [heq2] at ih2
    cases he with
    | inl h =>
      obtain ⟨img, h1, h2⟩ := ih1 e' h
      exact ⟨img, by simp [filesOf, h1], h2⟩
    | inr h =>
      obtain ⟨img, h1, h2⟩ := ih2 e' h
      exact ⟨img, by simp [filesOf, h1], h2⟩
  | case4 rel fs n rest hmk ih =>
    intro e' he
    simp only [get_file_listing, hmk] at he
    obtain ⟨img, h1, h2⟩ := ih e' he
    exact ⟨img, by simp [filesOf, h1], h2⟩
  | case5 rel fs n rest entry hmk fs1 e heq =>
    intro e' he
    simp only [get_file_listing, hmk, heq, List.not_mem_nil] at he
  | case6 rel fs n rest entry hmk fs1 heq es2 fs2 err2 heq2 ih =>
    intro e' he
    simp only [get_file_listing, hmk, heq, heq2, List.mem_cons] at he
    rw [heq2] at ih
    cases he with
    | inl h =>
      exact ⟨rel ++ [n], by simp [filesOf], h ▸ hmk⟩
    | inr h =>
      obtain ⟨img, h1, h2⟩ := ih e' h
      exact ⟨img, by simp [filesOf, h1], h2⟩

theorem gfl_nil (cfg : Config) (env : ImageEnv) (rel : Path) (fs : ThumbFS) :
    get_file_listing cfg env rel [] fs = ([], fs, none) := by
  simp [get_file_listing]

theorem gfl_cons_dir_ok (cfg : Config) (env : ImageEnv) (rel : Path)
    (d : String) (children rest : List FSTree) (fs : ThumbFS)
    (h : (get_file_listing cfg env (rel ++ [d]) children fs).2.2 = none) :
    get_file_listing cfg env rel (.dir d children :: rest) fs =
      ((get_file_listing cfg env (rel ++ [d]) children fs).1 ++
         (get_file_listing cfg env rel rest
            (get_file_listing cfg env (rel ++ [d]) children fs).2.1).1,
       (get_file_listing cfg env rel rest
          (get_file_listing cfg env (rel ++ [d]) children fs).2.1).2.1,
       (get_file_listing cfg env rel rest
          (get_file_listing cfg env (rel ++ [d]) children fs).2.1).2.2) := by
  simp only [get_file_listing]
  rcases heq : get_file_listing cfg env (rel ++ [d]) children fs with ⟨es1, fs1, err1⟩
  rw [heq] at h
  simp only at h
  subst h
  rcases heq2 : get_file_listing cfg env rel rest fs1 with ⟨es2, fs2, err2⟩
  show (es1 ++ (get_file_listing cfg env rel rest fs1).1,
        (get_file_listing cfg env rel rest fs1).2.1,
        (get_file_listing cfg env rel rest fs1).2.2) = _
  rw [heq2]

theorem gfl_cons_dir_err (cfg : Config) (env : ImageEnv) (rel : Path)
    (d : String) (children rest : List FSTree) (fs : ThumbFS) (e : PyExc)
    (h : (get_file_listing cfg env (rel ++ [d]) children fs).2.2 = some e) :
    get_file_listing cfg env rel (.dir d children :: rest) fs =
      ((get_file_listing cfg env (rel ++ [d]) children fs).1,
       (get_file_listing cfg env (rel ++ [d]) children fs).2.1, some e) := by
  simp only [get_file_listing]
  rcases heq : get_file_listing cfg env (rel ++ [d]) children fs with ⟨es1, fs1, err1⟩
  rw [heq] at h
  simp only at h
  subst h
  rfl

theorem gfl_cons_file_skip (cfg : Config) (env : ImageEnv) (rel : Path)
    (n : String) (rest : List FSTree) (fs : ThumbFS)
    (hmk : mkEntry cfg (rel ++ [n]) = none) :
    get_file_listing cfg env rel (.file n :: rest) fs =
      get_file_listing cfg env rel rest fs := by
  simp [get_file_listing, hmk]

theorem gfl_cons_file_err (cfg : Config) (env : ImageEnv) (rel : Path)
    (n : String) (rest : List FSTree) (fs : ThumbFS) (entry : ImageEntry)
    (e : PyExc) (hmk : mkEntry cfg (rel ++ [n]) = some entry)
    (hens : (ensure_thumbnail env cfg.thumbnail_size (rel ++ [n]) fs).2 = some e) :
    get_file_listing cfg env rel (.file n :: rest) fs =
      ([], (ensure_thumbnail env cfg.thumbnail_size (rel ++ [n]) fs).1, some e) := by
  simp only [get_file_listing, hmk]
  rcases heq : ensure_thumbnail env cfg.thumbnail_size (rel ++ [n]) fs with ⟨fs1, err1⟩
  rw [heq] at hens
  simp only at hens
  subst hens
  rfl

theorem gfl_cons_file_ok (cfg : Config) (env : ImageEnv) (rel : Path)
    (n : String) (rest : List FSTree) (fs : ThumbFS) (entry : ImageEntry)
    (hmk : mkEntry cfg (rel ++ [n]) = some entry)
    (hens : (ensure_thumbnail env cfg.thumbnail_size (rel ++ [n]) fs).2 = none) :
    get_file_listing cfg env rel (.file n :: rest) fs =
      (entry ::
         (get_file_listing cfg env rel rest
            (ensure_thumbnail env cfg.thumbnail_size (rel ++ [n]) fs).1).1,
       (get_file_listing cfg env rel rest
          (ensure_thumbnail env cfg.thumbnail_size (rel ++ [n]) fs).1).2.1,
       (get_file_listing cfg env rel rest
          (ensure_thumbnail env cfg.thumbnail_size (rel ++ [n]) fs).1).2.2) := by
  simp only [get_file_listing, hmk]
  rcases heq : ensure_thumbnail env cfg.thumbnail_size (rel ++ [n]) fs with ⟨fs1, err1⟩
  rw [heq] at hens
  simp only at hens
  subst hens
  rcases heq2 : get_file_listing cfg env rel rest fs1 with ⟨es2, fs2, err2⟩
  show (entry :: (get_file_listing cfg env rel rest fs1).1,
        (get_file_listing cfg env rel rest fs1).2.1,
        (get_file_listing cfg env rel rest fs1).2.2) = _
  rw [heq2]

/-- Splitting an error-free walk: when processing `ts1` raises no
exception, walking `ts1 ++ ts2` first yields the entries and thumbnail
writes of `ts1` and then continues with `ts2` from the resulting state,
whatever happens there. -/
theorem gfl_append_of_no_err (cfg : Config) (env : ImageEnv) (rel : Path) :
    ∀ (ts1 ts2 : List FSTree) (fs : ThumbFS),
      (get_file_listing cfg env rel ts1 fs).2.2 = none →
      get_file_listing cfg env rel (ts1 ++ ts2) fs =
        ((get_file_listing cfg env rel ts1 fs).1 ++
           (get_file_listing cfg env rel ts2
              (get_file_listing cfg env rel ts1 fs).2.1).1,
         (get_file_listing cfg env rel ts2
            (get_file_listing cfg env rel ts1 fs).2.1).2.1,
         (get_file_listing cfg env rel ts2
            (get_file_listing cfg env rel ts1 fs).2.1).2.2) := by
  intro ts1
  induction ts1 with
  | nil =>
    intro ts2 fs _
    rw [List.nil_append, gfl_nil]
    simp
  | cons t rest ih =>
    intro ts2 fs h
    cases t with
    | dir d children =>
      cases herr1 : (get_file_listing cfg env (rel ++ [d]) children fs).2.2 with
      | some e =>
        rw [gfl_cons_dir_err cfg env rel d children rest fs e herr1] at h
        exact Option.noConfusion h
      | none =>
        rw [gfl_cons_dir_ok cfg env rel d children rest fs herr1] at h ⊢
        rw [List.cons_append, gfl_cons_dir_ok cfg env rel d children (rest ++ ts2) fs herr1]
        simp only at h ⊢
        rw [ih ts2 _ h]
        simp [List.append_assoc]
    | file n =>
      cases hmk : mkEntry cfg (rel ++ [n]) with
      | none =>
        rw [gfl_cons_file_skip cfg env rel n rest fs hmk] at h ⊢
        rw [List.cons_append, gfl_cons_file_skip cfg env rel n (rest ++ ts2) fs hmk]
        exact ih ts2 fs h
      | some entry =>
        cases hens : (ensure_thumbnail env cfg.thumbnail_size (rel ++ [n]) fs).2 with
        | some e =>
          rw [gfl_cons_file_err cfg env rel n rest fs entry e hmk hens] at h
          exact Option.noConfusion h
        | none =>
          rw [gfl_cons_file_ok cfg env rel n rest fs entry hmk hens] at h ⊢
          rw [List.cons_append, gfl_cons_file_ok cfg env rel n (rest ++ ts2) fs entry hmk hens]
          simp only at h ⊢
          rw [ih ts2 _ h]
          simp

/-- A successful `createAfterMkdir` records the thumbnail file, keyed by
the destination path, with the source it was rendered from. -/
theorem createAfterMkdir_ok (env : ImageEnv) (img thumb : Path)
    (fs : ThumbFS) (hok : (createAfterMkdir env img thumb fs).2 = none) :
    lookupThumb (createAfterMkdir env img thumb fs).1 thumb =
      some (renderPath img) := by
  unfold createAfterMkdir at hok ⊢
  cases ho : env.openResult img with
  | some e =>
    rw [ho] at hok
    exact Option.noConfusion hok
  | none =>
    rw [ho] at hok
    cases hp : env.processResult img with
    | some e =>
      rw [hp] at hok
      exact Option.noConfusion hok
    | none =>
      show (List.find? (fun q => q.1 = thumb)
              ((thumb, renderPath img) :: fs.files)).map (fun q => q.2) =
        some (renderPath img)
      rw [List.find?_cons_of_pos _ (by simp)]
      rfl

/-- A successful `ensure_thumbnail` on a missing thumbnail records the
thumbnail file, keyed by the relative path, with the source it was
rendered from. -/
theorem ensure_creates (env : ImageEnv) (sz : Nat × Nat) (img : Path)
    (fs : ThumbFS) (hne : thumbExists fs img = false)
    (hok : (ensure_thumbnail env sz img fs).2 = none) :
    lookupThumb (ensure_thumbnail env sz img fs).1 img = some (renderPath img) := by
  simp only [ensure_thumbnail, hne, Bool.false_eq_true, if_false] at hok ⊢
  simp only [create_thumbnail] at hok ⊢
  by_cases h1 : dirname img ∈ fs.dirs
  · rw [if_pos h1] at hok ⊢
    exact createAfterMkdir_ok env img img fs hok
  · rw [if_neg h1] at hok ⊢
    by_cases h2 : dirname (dirname img) ∈ fs.dirs
    · rw [if_pos h2] at hok ⊢
      exact createAfterMkdir_ok env img img _ hok
    · rw [if_neg h2] at hok
      exact Option.noConfusion hok

/-- When the thumbnail already exists, `ensure_thumbnail` does nothing:
same state, no exception. -/
theorem ensure_noop_of_exists (env : ImageEnv) (sz : Nat × Nat) (img : Path)
    (fs : ThumbFS) (h : thumbExists fs img = true) :
    ensure_thumbnail env sz img fs = (fs, none) := by
  simp [ensure_thumbnail, h]

/-- An error-free walk yields exactly the accepted files, in walk order,
through `mkEntry`. -/
theorem gfl_entries_of_no_err (cfg : Config) (env : ImageEnv) (rel : Path)
    (ts : List FSTree) (fs : ThumbFS) :
    (get_file_listing cfg env rel ts fs).2.2 = none →
    (get_file_listing cfg env rel ts fs).1 =
      (filesOf rel ts).filterMap (mkEntry cfg) := by
  induction rel, ts, fs using get_file_listing.induct cfg env with
  | case1 rel fs =>
    intro _
    simp [get_file_listing, filesOf]
  | case2 rel fs d children rest es1 fs1 e heq ih =>
    intro h
    simp only [get_file_listing, heq] at h
    exact Option.noConfusion h
  | case3 rel fs d children rest es1 fs1 heq1 es2 fs2 err2 heq2 ih1 ih2 =>
    intro h
    simp only [get_file_listing, heq1, heq2] at h ⊢
    rw [heq1] at ih1
    rw [heq2] at ih2
    rw [filesOf, List.filterMap_append, ← ih1 rfl, ← ih2 h]
  | case4 rel fs n rest hmk ih =>
    intro h
    simp only [get_file_listing, hmk] at h ⊢
    rw [filesOf, List.filterMap_cons, hmk, ih h]
  | case5 rel fs n rest entry hmk fs1 e heq =>
    intro h
    simp only [get_file_listing, hmk, heq] at h
    exact Option.noConfusion h
  | case6 rel fs n rest entry hmk fs1 heq es2 fs2 err2 heq2 ih =>
    intro h
    simp only [get_file_listing, hmk, heq, heq2] at h ⊢
    rw [heq2] at ih
    rw [filesOf, List.filterMap_cons, hmk, ← ih h]

/-- With enough fuel, the fuel-indexed evaluator computes exactly
`get_file_listing`. -/
theorem walkFuel_eq_gfl (cfg : Config) (env : ImageEnv) (rel : Path)
    (ts : List FSTree) (fs : ThumbFS) :
    ∀ fuel, sizeOf ts ≤ fuel →
      walkFuel fuel cfg env rel ts fs = get_file_listing cfg env rel ts fs := by
  induction rel, ts, fs using get_file_listing.induct cfg env with
  | case1 rel fs =>
    intro fuel hf
    cases fuel with
    | zero => simp at hf
    | succ f => rw [walkFuel, gfl_nil]
  | case2 rel fs d children rest es1 fs1 e heq ih =>
    intro fuel hf
    cases fuel with
    | zero => simp at hf
    | succ f =>
      simp only [List.cons.sizeOf_spec, FSTree.dir.sizeOf_spec] at hf
      have hb1 : sizeOf children ≤ f := by omega
      simp only [walkFuel, ih f hb1, heq]
      rw [gfl_cons_dir_err cfg env rel d children rest fs e (by rw [heq]), heq]
  | case3 rel fs d children rest es1 fs1 heq1 es2 fs2 err2 heq2 ih1 ih2 =>
    intro fuel hf
    cases fuel with
    | zero => simp at hf
    | succ f =>
      simp only [List.cons.sizeOf_spec, FSTree.dir.sizeOf_spec] at hf
      have hb1 : sizeOf children ≤ f := by omega
      have hb2 : sizeOf rest ≤ f := by omega
      simp only [walkFuel, ih1 f hb1, heq1, ih2 f hb2, heq2]
      rw [gfl_cons_dir_ok cfg env rel d children rest fs (by rw [heq1]), heq1, heq2]
  | case4 rel fs n rest hmk ih =>
    intro fuel hf
    cases fuel with
    | zero => simp at hf
    | succ f =>
      simp only [List.cons.sizeOf_spec, FSTree.file.sizeOf_spec] at hf
      have hb : sizeOf rest ≤ f := by omega
      simp only [walkFuel, hmk, ih f hb]
      rw [gfl_cons_file_skip cfg env rel n rest fs hmk]
  | case5 rel fs n rest entry hmk fs1 e heq =>
    intro fuel hf
    cases fuel with
    | zero => simp at hf
    | succ f =>
      simp only [walkFuel, hmk, heq]
      rw [gfl_cons_file_err cfg env rel n rest fs entry e hmk (by rw [heq]), heq]
  | case6 rel fs n rest entry hmk fs1 heq es2 fs2 err2 heq2 ih =>
    intro fuel hf
    cases fuel with
    | zero => simp at hf
    | succ f =>
      simp only [List.cons.sizeOf_spec, FSTree.file.sizeOf_spec] at hf
      have hb : sizeOf rest ≤ f := by omega
      simp only [walkFuel, hmk, heq, ih f hb, heq2]
      rw [gfl_cons_file_ok cfg env rel n rest fs entry hmk (by rw [heq]), heq, heq2]

/-- Every accepted file's entry carries the relabeled filetype and
prefix-rooted `src`/`thumb_src`, as built at src/teamster.py:150-160. -/
theorem mkEntry_fields (cfg : Config) (img : Path) (e : ImageEntry)
    (h : mkEntry cfg img = some e) :
    e.filetype = relabelExt (extOf (lastName img)) ∧
    ∃ r, e.src = (if cfg.teams_version = 2 then V2_API_PREFIX else "") ++
           "/images/" ++ r ∧
         e.thumb_src = (if cfg.teams_version = 2 then V2_API_PREFIX else "") ++
           "/thumbnails/" ++ r := by
  simp only [mkEntry] at h
  split at h
  · injection h with h2
    subst h2
    exact ⟨rfl, ⟨_, rfl, rfl⟩⟩
  · exact Option.noConfusion h

/-- Applying EXTENSION_MAPPING relabeling twice is the same as applying
it once. -/
theorem relabelExt_idem (s : String) : relabelExt (relabelExt s) = relabelExt s := by
  by_cases h1 : s = "jpeg"
  · subst h1
    decide
  · by_cases h2 : s = "gif"
    · subst h2
      decide
    · have h : relabelExt s = s := by
        simp [relabelExt, EXTENSION_MAPPING, h1, h2]
      rw [h, h]

/-- Claim C1 (counterexample): for the image root holding exactly
`a.png`, `sub/b.jpeg` and `c.txt`, the version-2 listing emits the src
`/evergreen-assets/backgroundimages/images/sub/b.jpeg.jpg` for `b` — the
relabeled extension is appended to the full name, not substituted — so
no entry has the src `/evergreen-assets/backgroundimages/images/sub/b.jpg`
the claim requires. -/
theorem c1_counterexample :
    (get_file_listing cfg2 envOk [] demoTree fs0).1.map ImageEntry.src =
      ["/evergreen-assets/backgroundimages/images/a.png",
       "/evergreen-assets/backgroundimages/images/sub/b.jpeg.jpg"] ∧
    "/evergreen-assets/backgroundimages/images/sub/b.jpg" ∉
      (get_file_listing cfg2 envOk [] demoTree fs0).1.map ImageEntry.src := by
  rw [← walkFuel_eq_gfl cfg2 envOk [] demoTree fs0 10000 (by decide)]
  decide

/-- Claim C1 (amended): for the image root holding exactly `a.png`,
`sub/b.jpeg` and `c.txt`, the version-2 listing yields exactly the two
entries `a` (filetype png, src `.../images/a.png`) and `b` (filetype jpg,
src `.../images/sub/b.jpeg.jpg`), excludes `c.txt`, raises no error, and
creates exactly the two thumbnail files `a.png` and `sub/b.jpeg` (original
extensions) under the thumbnail root. -/
theorem c1_amended :
    get_file_listing cfg2 envOk [] demoTree fs0 = ([aEntry, bEntry], fsB, none) ∧
    (get_file_listing cfg2 envOk [] demoTree fs0).2.1.files.map Prod.fst =
      [["sub", "b.jpeg"], ["a.png"]] := by
  rw [← walkFuel_eq_gfl cfg2 envOk [] demoTree fs0 10000 (by decide)]
  decide

/-- Claim C2 (counterexample): when `Image.open` fails while loading the
source (`a.png`), the exception that aborts the catalog listing is the
original exception itself, not an `IOError` wrapping it: `Image.open` sits
outside the `try` block of `create_thumbnail`. -/
theorem c2_counterexample :
    (get_file_listing cfg2 envOpenFail [] [FSTree.file "a.png"] fs0).2.2 =
      some (.exc "cannot identify image file") ∧
    isWrapped (get_file_listing cfg2 envOpenFail [] [FSTree.file "a.png"] fs0).2.2 =
      false := by
  rw [← walkFuel_eq_gfl cfg2 envOpenFail [] [FSTree.file "a.png"] fs0 10000 (by decide)]
  decide

/-- Claim C2 (amended): when resizing or saving fails,
`create_thumbnail` raises an `IOError` that wraps the original exception
as its cause and whose message names the offending source path; when
loading fails, the original exception propagates unwrapped; in both
cases the exception propagates uncaught through `get_file_listing` to
its caller (the listing loop has no handler). -/
theorem c2_amended :
    ∀ (env : ImageEnv) (img thumb : Path) (sz : Nat × Nat) (fs : ThumbFS)
      (e : PyExc),
      (dirname thumb ∈ fs.dirs ∨ dirname (dirname thumb) ∈ fs.dirs →
        env.openResult img = none → env.processResult img = some e →
        (create_thumbnail env img thumb sz fs).2 =
          some (.ioError ("could not create thumbnail for " ++ renderPath img) e)) ∧
      (dirname thumb ∈ fs.dirs ∨ dirname (dirname thumb) ∈ fs.dirs →
        env.openResult img = some e →
        (create_thumbnail env img thumb sz fs).2 = some e) ∧
      (∀ (cfg : Config) (rel : Path) (n : String) (rest : List FSTree)
         (entry : ImageEntry),
        mkEntry cfg (rel ++ [n]) = some entry →
        (ensure_thumbnail env cfg.thumbnail_size (rel ++ [n]) fs).2 = some e →
        (get_file_listing cfg env rel (FSTree.file n :: rest) fs).2.2 = some e) := by
  intro env img thumb sz fs e
  refine ⟨?_, ?_, ?_⟩
  · intro hd ho hp
    simp only [create_thumbnail]
    by_cases h1 : dirname thumb ∈ fs.dirs
    · rw [if_pos h1]
      simp [createAfterMkdir, ho, hp]
    · rcases hd with h | h
      · exact absurd h h1
      · rw [if_neg h1, if_pos h]
        simp [createAfterMkdir, ho, hp]
  · intro hd ho
    simp only [create_thumbnail]
    by_cases h1 : dirname thumb ∈ fs.dirs
    · rw [if_pos h1]
      simp [createAfterMkdir, ho]
    · rcases hd with h | h
      · exact absurd h h1
      · rw [if_neg h1, if_pos h]
        simp [createAfterMkdir, ho]
  · intro cfg rel n rest entry hmk hens
    rw [gfl_cons_file_err cfg env rel n rest fs entry e hmk hens]

/-- Claim C2 (witness): a concrete save failure yields the wrapping
`IOError` naming `a.png`, and a concrete load failure propagates through
the listing. -/
theorem c2_amended_witness :
    (create_thumbnail envSaveFail ["a.png"] ["a.png"] (128, 128) fs0).2 =
      some (.ioError "could not create thumbnail for a.png"
        (.exc "broken data stream")) ∧
    (get_file_listing cfg2 envOpenFail [] [FSTree.file "a.png"] fs0).2.2 =
      some (.exc "cannot identify image file") := by
  constructor
  · have h := (c2_amended envSaveFail ["a.png"] ["a.png"] (128, 128) fs0
      (.exc "broken data stream")).1 (Or.inl (by decide)) rfl rfl
    rw [h]
    decide
  · exact (c2_amended envOpenFail [] ["a.png"] (128, 128) fs0
      (.exc "cannot identify image file")).2.2 cfg2 [] "a.png" [] aEntry
      (by decide) (by decide)

/-- Claim C3: in an error-free walk the yielded entries are exactly one
per file whose extension (lowercased, dot removed) lies in
ACCEPTED_SUFFIXES, in walk order; a file is mapped to an entry iff its
extension is accepted, so any other extension (including none) is never
yielded. -/
theorem c3_accept_iff (cfg : Config) (env : ImageEnv) (rel : Path)
    (ts : List FSTree) (fs : ThumbFS)
    (h : (get_file_listing cfg env rel ts fs).2.2 = none) :
    (get_file_listing cfg env rel ts fs).1 =
      (filesOf rel ts).filterMap (mkEntry cfg) ∧
    ∀ img : Path, (mkEntry cfg img).isSome = true ↔
      extOf (lastName img) ∈ ACCEPTED_SUFFIXES := by
  refine ⟨gfl_entries_of_no_err cfg env rel ts fs h, ?_⟩
  intro img
  simp only [mkEntry]
  split
  · rename_i hc
    simp [hc]
  · rename_i hc
    simp [hc]

/-- Claim C3 (witness): the end-to-end scenario instantiates the
filter characterization. -/
theorem c3_witness :
    (get_file_listing cfg2 envOk [] demoTree fs0).1 =
      (filesOf [] demoTree).filterMap (mkEntry cfg2) ∧
    ((mkEntry cfg2 ["c.txt"]).isSome = true ↔
      extOf (lastName ["c.txt"]) ∈ ACCEPTED_SUFFIXES) :=
  ⟨(c3_accept_iff cfg2 envOk [] demoTree fs0
      (by rw [← walkFuel_eq_gfl cfg2 envOk [] demoTree fs0 10000 (by decide)]; decide)).1,
   (c3_accept_iff cfg2 envOk [] demoTree fs0
      (by rw [← walkFuel_eq_gfl cfg2 envOk [] demoTree fs0 10000 (by decide)]; decide)).2
     ["c.txt"]⟩

/-- Claim C4: the relabeling map is total over the accepted set with
jpeg, gif mapping to jpg and png, jpg unchanged; it is idempotent on all
strings; and every yielded entry's filetype equals the relabeled
extension of its source file. -/
theorem c4_relabel :
    relabelExt "jpeg" = "jpg" ∧ relabelExt "gif" = "jpg" ∧
    relabelExt "png" = "png" ∧ relabelExt "jpg" = "jpg" ∧
    (∀ s, relabelExt (relabelExt s) = relabelExt s) ∧
    (∀ (cfg : Config) (env : ImageEnv) (rel : Path) (ts : List FSTree)
       (fs : ThumbFS) (e : ImageEntry),
       e ∈ (get_file_listing cfg env rel ts fs).1 →
       ∃ img, img ∈ filesOf rel ts ∧
         e.filetype = relabelExt (extOf (lastName img))) := by
  refine ⟨by decide, by decide, by decide, by decide, relabelExt_idem, ?_⟩
  intro cfg env rel ts fs e he
  obtain ⟨img, h1, h2⟩ := mem_gfl_shape cfg env rel ts fs e he
  exact ⟨img, h1, (mkEntry_fields cfg img e h2).1⟩

/-- Claim C4 (witness): the entry for `a.png` carries the relabeled
extension of some file of the demo tree. -/
theorem c4_witness :
    ∃ img, img ∈ filesOf [] demoTree ∧
      aEntry.filetype = relabelExt (extOf (lastName img)) :=
  c4_relabel.2.2.2.2.2 cfg2 envOk [] demoTree fs0 aEntry
    (by rw [← walkFuel_eq_gfl cfg2 envOk [] demoTree fs0 10000 (by decide)]; decide)

/-- Claim C5: ensuring a thumbnail is idempotent. When the thumbnail
path already exists nothing is done (existence alone is the signal);
for a missing thumbnail, a successful first call creates it and the
second call returns the state unchanged with no write; and no walk
ever deletes or overwrites an existing thumbnail. -/
theorem c5_thumbnail_idempotent :
    ∀ (env : ImageEnv) (sz : Nat × Nat) (img : Path) (fs : ThumbFS),
      (thumbExists fs img = true → ensure_thumbnail env sz img fs = (fs, none)) ∧
      (thumbExists fs img = false →
        (ensure_thumbnail env sz img fs).2 = none →
        thumbExists (ensure_thumbnail env sz img fs).1 img = true ∧
        ensure_thumbnail env sz img (ensure_thumbnail env sz img fs).1 =
          ((ensure_thumbnail env sz img fs).1, none)) ∧
      (∀ q c, lookupThumb fs q = some c →
        lookupThumb (ensure_thumbnail env sz img fs).1 q = some c) ∧
      (∀ (cfg : Config) (env2 : ImageEnv) (rel : Path) (ts : List FSTree)
         (q : Path) (c : String),
        lookupThumb fs q = some c →
        lookupThumb (get_file_listing cfg env2 rel ts fs).2.1 q = some c) := by
  intro env sz img fs
  refine ⟨ensure_noop_of_exists env sz img fs, ?_,
    lookupThumb_ensure env sz img fs, ?_⟩
  · intro hne hok
    have hcreated : thumbExists (ensure_thumbnail env sz img fs).1 img = true := by
      simp only [thumbExists, ensure_creates env sz img fs hne hok, Option.isSome_some]
    exact ⟨hcreated, ensure_noop_of_exists env sz img _ hcreated⟩
  · intro cfg env2 rel ts q c hq
    exact lookupThumb_gfl cfg env2 rel ts fs q c hq

/-- Claim C5 (witness): an existing `a.png` thumbnail is left alone, and
for a missing one the first call creates it and the second is a no-op. -/
theorem c5_witness :
    ensure_thumbnail envOk (128, 128) ["a.png"] fsA = (fsA, none) ∧
    thumbExists (ensure_thumbnail envOk (128, 128) ["a.png"] fs0).1 ["a.png"] = true ∧
    ensure_thumbnail envOk (128, 128) ["a.png"]
        (ensure_thumbnail envOk (128, 128) ["a.png"] fs0).1 =
      ((ensure_thumbnail envOk (128, 128) ["a.png"] fs0).1, none) :=
  ⟨(c5_thumbnail_idempotent envOk (128, 128) ["a.png"] fsA).1 (by decide),
   (c5_thumbnail_idempotent envOk (128, 128) ["a.png"] fs0).2.1
     (by decide) (by decide)⟩

/-- Claim C6: for the same entry sequence, version 1 builds the bare
ordered array of entry objects and version 2 the object whose single key
`videoBackgroundImages` maps to that same array; the embedded entry
objects are identical. -/
theorem c6_manifest_shapes (files : List ImageEntry) :
    build_manifest 1 files = Json.arr (files.map entryToJson) ∧
    build_manifest 2 files =
      Json.obj [("videoBackgroundImages", Json.arr (files.map entryToJson))] :=
  ⟨rfl, rfl⟩

/-- Claim C7: every yielded entry has `src` rooted at prefix + "/images/"
and `thumb_src` at prefix + "/thumbnails/", with prefix
`/evergreen-assets/backgroundimages` under version 2 and empty under
version 1. -/
theorem c7_entry_paths_rooted :
    ∀ (cfg : Config) (env : ImageEnv) (rel : Path) (ts : List FSTree)
      (fs : ThumbFS) (e : ImageEntry),
      e ∈ (get_file_listing cfg env rel ts fs).1 →
      (cfg.teams_version = 2 →
        (∃ r, e.src = V2_API_PREFIX ++ "/images/" ++ r) ∧
        (∃ r, e.thumb_src = V2_API_PREFIX ++ "/thumbnails/" ++ r)) ∧
      (cfg.teams_version = 1 →
        (∃ r, e.src = "/images/" ++ r) ∧
        (∃ r, e.thumb_src = "/thumbnails/" ++ r)) := by
  intro cfg env rel ts fs e he
  obtain ⟨img, _, hmk⟩ := mem_gfl_shape cfg env rel ts fs e he
  obtain ⟨_, r, hsrc, hthumb⟩ := mkEntry_fields cfg img e hmk
  constructor
  · intro h2
    rw [h2] at hsrc hthumb
    have hp : (if (2 : Nat) = 2 then V2_API_PREFIX else "") = V2_API_PREFIX := rfl
    rw [hp] at hsrc hthumb
    exact ⟨⟨r, hsrc⟩, ⟨r, hthumb⟩⟩
  · intro h1
    rw [h1] at hsrc hthumb
    have hp : (if (1 : Nat) = 2 then V2_API_PREFIX else "") = "" := rfl
    rw [hp] at hsrc hthumb
    have h3 : ("" ++ "/images/" : String) = "/images/" := by decide
    have h4 : ("" ++ "/thumbnails/" : String) = "/thumbnails/" := by decide
    rw [h3] at hsrc
    rw [h4] at hthumb
    exact ⟨⟨r, hsrc⟩, ⟨r, hthumb⟩⟩

/-- Claim C7 (witness): the entry for `a.png` in the version-2 demo run
is rooted under the version-2 prefix. -/
theorem c7_witness :
    (∃ r, aEntry.src = V2_API_PREFIX ++ "/images/" ++ r) ∧
    (∃ r, aEntry.thumb_src = V2_API_PREFIX ++ "/thumbnails/" ++ r) :=
  (c7_entry_paths_rooted cfg2 envOk [] demoTree fs0 aEntry
    (by rw [← walkFuel_eq_gfl cfg2 envOk [] demoTree fs0 10000 (by decide)]; decide)).1
    rfl

/-- Claim C8: `find_file` returns the requested path whenever it exists;
otherwise it returns the path with the last extension component
stripped (the last name component replaced by its stem). -/
theorem c8_find_file (exi : Path → Bool) (p : Path) :
    (exi p = true → find_file exi p = p) ∧
    (exi p = false → find_file exi p = withSuffixEmpty p) ∧
    (p ≠ [] → withSuffixEmpty p = dirname p ++ [stem (lastName p)]) := by
  refine ⟨?_, ?_, ?_⟩
  · intro h
    simp [find_file, h]
  · intro h
    simp [find_file, h]
  · intro h
    cases p with
    | nil => exact absurd rfl h
    | cons a as => rfl

/-- Claim C8 (witness): an existing path resolves to itself; a missing
`a/b.png` resolves to `a/b`. -/
theorem c8_witness :
    find_file exAll ["a", "b.png"] = ["a", "b.png"] ∧
    find_file exNone ["a", "b.png"] = ["a", "b"] :=
  ⟨(c8_find_file exAll ["a", "b.png"]).1 rfl,
   by
     have h := (c8_find_file exNone ["a", "b.png"]).2.1 rfl
     rw [h]
     decide⟩

/-- Claim C9: the code performs no containment check. For the request
`../secret.png` under the `images` root — whose resolved target
`root/secret.png` exists — `find_file` returns the traversal path
unchanged, although that path normalizes to `root/secret.png`, outside
the root `root/images`; nothing rejects it before the file is served. -/
theorem c9_no_traversal_check :
    find_file exEnv9 travPath = travPath ∧
    normalize travPath = ["root", "secret.png"] ∧
    List.isPrefixOf ["root", "images"] (normalize travPath) = false := by
  decide

/-- Claim C10: the walk is not atomic. If a prefix of the walk finishes
without error, walking the whole sequence yields that prefix's entries
first (produced normally), the final error is whatever the remainder
produces, and every thumbnail present after the prefix — including the
ones it just created — survives in the final state regardless of any
later failure: nothing is rolled back. -/
theorem c10_no_rollback :
    ∀ (cfg : Config) (env : ImageEnv) (rel : Path) (ts1 ts2 : List FSTree)
      (fs : ThumbFS),
      (get_file_listing cfg env rel ts1 fs).2.2 = none →
      ((get_file_listing cfg env rel (ts1 ++ ts2) fs).1 =
        (get_file_listing cfg env rel ts1 fs).1 ++
          (get_file_listing cfg env rel ts2
            (get_file_listing cfg env rel ts1 fs).2.1).1) ∧
      ((get_file_listing cfg env rel (ts1 ++ ts2) fs).2.2 =
        (get_file_listing cfg env rel ts2
          (get_file_listing cfg env rel ts1 fs).2.1).2.2) ∧
      (∀ q c,
        lookupThumb (get_file_listing cfg env rel ts1 fs).2.1 q = some c →
        lookupThumb (get_file_listing cfg env rel (ts1 ++ ts2) fs).2.1 q = some c) := by
  intro cfg env rel ts1 ts2 fs h
  rw [gfl_append_of_no_err cfg env rel ts1 ts2 fs h]
  refine ⟨rfl, rfl, ?_⟩
  intro q c hq
  exact lookupThumb_gfl cfg env rel ts2 _ q c hq

/-- Claim C10 (witness): with `bad.png` failing to load, the walk over
`a.png` then `bad.png` aborts with the load error, yet the thumbnail
created for `a.png` earlier in the same walk remains on disk. -/
theorem c10_witness :
    (get_file_listing cfg2 envFailBad []
        ([FSTree.file "a.png"] ++ [FSTree.file "bad.png"]) fs0).2.2 =
      some (.exc "cannot identify image file") ∧
    lookupThumb (get_file_listing cfg2 envFailBad []
        ([FSTree.file "a.png"] ++ [FSTree.file "bad.png"]) fs0).2.1 ["a.png"] =
      some "a.png" := by
  have hmid : (get_file_listing cfg2 envFailBad [] [FSTree.file "a.png"] fs0).2.1 = fsA := by
    rw [← walkFuel_eq_gfl cfg2 envFailBad [] [FSTree.file "a.png"] fs0 10000 (by decide)]
    decide
  have h0 : (get_file_listing cfg2 envFailBad [] [FSTree.file "a.png"] fs0).2.2 = none := by
    rw [← walkFuel_eq_gfl cfg2 envFailBad [] [FSTree.file "a.png"] fs0 10000 (by decide)]
    decide
  have hc := c10_no_rollback cfg2 envFailBad [] [FSTree.file "a.png"]
    [FSTree.file "bad.png"] fs0 h0
  refine ⟨?_, ?_⟩
  · rw [hc.2.1, hmid,
      ← walkFuel_eq_gfl cfg2 envFailBad [] [FSTree.file "bad.png"] fsA 10000 (by decide)]
    decide
  · exact hc.2.2 ["a.png"] "a.png" (by rw [hmid]; decide)

end Teamster
